import Mathlib

/-!
# A shallow embedding of arrow2's list container, schema, and binary page encoder

This file embeds the parts of the `arrow2` crate exercised by the claims:
`ListArray` (src/array/list/mod.rs), `Schema` (src/datatypes/schema.rs) and
`array_to_page_v1` (src/io/parquet/write/binary.rs), together with the
supporting pieces (`Bitmap`, `OffsetsBuffer`, the arrow interop boundary and
the parquet page types) that those sources use.  Buffers of machine integers
are modelled as Lean lists; zero-copy slicing is modelled as `drop`/`take`
views; Rust panics are modelled with `Option` (`none` = panic) and Rust
`Result` with `Except`.
-/

namespace Arrow2

/-! ## Logical data types and fields (src/datatypes) -/

mutual

/-- The modelled subset of arrow2's `DataType` enum (closed variant set;
extension types are absent, so `to_logical_type` is the identity here). -/
inductive DataType : Type where
  | null : DataType
  | boolean : DataType
  | int16 : DataType
  | binary : DataType
  | largeBinary : DataType
  | list (child : Field) : DataType
  | largeList (child : Field) : DataType

/-- arrow2's `Field`: a name, a logical data type and a nullability flag. -/
inductive Field : Type where
  | mk (name : String) (data_type : DataType) (is_nullable : Bool) : Field

end

deriving instance DecidableEq for DataType
deriving instance DecidableEq for Field
deriving instance DecidableEq for Except

/-- The field's name. -/
def Field.name : Field → String
  | .mk n _ _ => n

/-- The field's logical data type. -/
def Field.data_type : Field → DataType
  | .mk _ d _ => d

/-- The field's nullability flag. -/
def Field.is_nullable : Field → Bool
  | .mk _ _ b => b

/-! ## Validity bitmap (src/bitmap, not under src/: modelled from the spec) -/

/-- Modelled from the spec: the validity `Bitmap` (its source is not among the
inspected files) is a bit-packed per-element null indicator with a bit length,
O(1) `unset_bits`, and zero-copy `slice`.  The packed byte buffer and the
cached unset count are represented by the list of bits itself; slicing is a
`drop`/`take` view. -/
structure Bitmap where
  bits : List Bool
deriving DecidableEq

/-- The bit length of the bitmap. -/
def Bitmap.len (b : Bitmap) : Nat := b.bits.length

/-- Modelled from the spec: `get(i) -> bool`; an unset bit marks a null. -/
def Bitmap.get (b : Bitmap) (i : Nat) : Bool := b.bits.getD i false

/-- Modelled from the spec: `unset_bits() -> usize`, the number of unset
(null) bits, cached and O(1) in the source. -/
def Bitmap.unset_bits (b : Bitmap) : Nat := b.bits.count false

/-- Modelled from the spec: zero-copy `slice_unchecked(offset, length)` of a
bitmap, adjusting a bit offset and length without copying. -/
def Bitmap.slice_unchecked (b : Bitmap) (offset length : Nat) : Bitmap :=
  ⟨(b.bits.drop offset).take length⟩

/-! ## Offsets (src/offset.rs, not under src/: modelled from the spec) -/

/-- Modelled from the spec: an `OffsetsBuffer<O>` is an owned sequence of
monotonically non-decreasing signed integers, length = element count + 1,
with all elements non-negative.  It is represented by its list of values;
this predicate is the invariant its validated constructor establishes. -/
def OffsetsBuffer.wf (offsets : List Int) : Prop :=
  offsets ≠ [] ∧ offsets.Chain' (· ≤ ·) ∧ ∀ x ∈ offsets, 0 ≤ x

/-- Executable check that a sequence is monotonically non-decreasing. -/
def chain_le : List Int → Bool
  | [] => true
  | [_] => true
  | x :: y :: rest => x ≤ y && chain_le (y :: rest)

theorem chain_le_iff (l : List Int) : chain_le l = true ↔ l.Chain' (· ≤ ·) := by
  induction l with
  | nil => simp [chain_le]
  | cons x l ih =>
    cases l with
    | nil => simp [chain_le]
    | cons y rest =>
      rw [List.chain'_cons, ← ih]
      simp [chain_le]

instance (offsets : List Int) : Decidable (OffsetsBuffer.wf offsets) :=
  decidable_of_iff (offsets ≠ [] ∧ chain_le offsets = true ∧ ∀ x ∈ offsets, 0 ≤ x)
    (by unfold OffsetsBuffer.wf; rw [chain_le_iff])

/-- Modelled from the spec: `len_proxy() -> usize` = element count =
sequence length − 1. -/
def OffsetsBuffer.len_proxy (offsets : List Int) : Nat := offsets.length - 1

/-- The last offset of the buffer (the buffer is never empty in the source;
the default is never reached under `OffsetsBuffer.wf`). -/
def OffsetsBuffer.last (offsets : List Int) : Int := offsets.getLastD 0

/-- Modelled from the spec: `start_end_unchecked(i) -> (start, end)`, O(1),
requiring `i < len_proxy()` from the caller. -/
def OffsetsBuffer.start_end_unchecked (offsets : List Int) (i : Nat) : Int × Int :=
  (offsets.getD i 0, offsets.getD (i + 1) 0)

/-- Modelled from the spec: `slice_unchecked(offset, length)` keeps only the
`length` sequence entries starting at index `offset`, aliasing the backing
sequence. -/
def OffsetsBuffer.slice_unchecked (offsets : List Int) (offset length : Nat) : List Int :=
  (offsets.drop offset).take length

/-- Modelled from the spec: `try_check_offsets_bounds(offsets, child_len)`
fails iff the last offset exceeds `child_len`
(src/array/specification.rs is not among the inspected files). -/
def try_check_offsets_bounds (offsets : List Int) (child_len : Nat) : Except String Unit :=
  if OffsetsBuffer.last offsets > (child_len : Int) then
    .error "offsets must not exceed the values length"
  else
    .ok ()

/-! ## The type-erased child array (`Box<dyn Array>`, spec §4.3) -/

/-- Modelled from the spec: the polymorphic `Box<dyn Array>` used as a list
container's child, restricted to the capability set the list container uses:
`len`, `data_type`, equality and zero-copy `sliced_unchecked`.  The
variant-specific payload is modelled as a list of primitive slots (the
concrete scenarios use an `i16` child). -/
structure DynArray where
  data_type : DataType
  items : List Int
deriving DecidableEq

/-- The logical length of the child array. -/
def DynArray.len (a : DynArray) : Nat := a.items.length

/-- Modelled from the spec: `sliced_unchecked(offset, length)` produces a
zero-copy view over the same payload with adjusted start and length. -/
def DynArray.sliced_unchecked (a : DynArray) (offset length : Nat) : DynArray :=
  { a with items := (a.items.drop offset).take length }

/-! ## The list container (src/array/list/mod.rs) -/

/-- arrow2's `ListArray<O>`: a `data_type`, an `OffsetsBuffer<O>`, a boxed
child array and an optional validity bitmap.  The offset width parameter `O`
appears as an explicit `large : Bool` argument (`O::IS_LARGE`) on the
operations that consult it. -/
structure ListArray where
  data_type : DataType
  offsets : List Int
  values : DynArray
  validity : Option Bitmap
deriving DecidableEq

/-- `ListArray::try_get_child`: the inner field of a `List`/`LargeList`
data type matching the offset width, or an error.  `to_logical_type` is the
identity on the modelled (extension-free) variants. -/
def ListArray.try_get_child (large : Bool) (data_type : DataType) : Except String Field :=
  if large then
    match data_type with
    | .largeList child => .ok child
    | _ => .error "ListArray expects DataType LargeList"
  else
    match data_type with
    | .list child => .ok child
    | _ => .error "ListArray expects DataType List"

/-- `ListArray::try_new`: validates offset bounds against the child length,
the validity length against `len_proxy`, the data type's shape, and the
declared child data type against the actual one, in the source's order. -/
def ListArray.try_new (large : Bool) (data_type : DataType) (offsets : List Int)
    (values : DynArray) (validity : Option Bitmap) : Except String ListArray :=
  match try_check_offsets_bounds offsets values.len with
  | .error e => .error e
  | .ok _ =>
    if validity.any (fun validity => validity.len != OffsetsBuffer.len_proxy offsets) then
      .error "validity mask length must match the number of values"
    else
      match ListArray.try_get_child large data_type with
      | .error e => .error e
      | .ok child =>
        if child.data_type ≠ values.data_type then
          .error "ListArray child DataType must match"
        else
          .ok { data_type, offsets, values, validity }

/-- `ListArray::new` = `try_new(..).unwrap()`: `none` models the panic. -/
def ListArray.new (large : Bool) (data_type : DataType) (offsets : List Int)
    (values : DynArray) (validity : Option Bitmap) : Option ListArray :=
  (ListArray.try_new large data_type offsets values validity).toOption

/-- `ListArray::len` = `offsets.len_proxy()`. -/
def ListArray.len (a : ListArray) : Nat := OffsetsBuffer.len_proxy a.offsets

/-- `ListArray::slice_unchecked(offset, length)`: slices the validity (the
source also computes `unset_bits() > 0` on the sliced bitmap, but the
resulting `Option` is dropped, so the validity is never cleared) and slices
the offsets to `length + 1` entries starting at `offset`. -/
def ListArray.slice_unchecked (a : ListArray) (offset length : Nat) : ListArray :=
  let validity := a.validity.map fun bitmap => bitmap.slice_unchecked offset length
  let _dropped := validity.bind fun bitmap =>
    if bitmap.unset_bits > 0 then some bitmap else none
  { a with
    validity := validity
    offsets := OffsetsBuffer.slice_unchecked a.offsets offset (length + 1) }

/-- `ListArray::slice(offset, length)`: asserts `offset + length ≤ len()`
(`none` models the assertion failure) then delegates to the unchecked form. -/
def ListArray.slice (a : ListArray) (offset length : Nat) : Option ListArray :=
  if offset + length ≤ a.len then some (a.slice_unchecked offset length) else none

/-- `ListArray::value_unchecked(i)`: a zero-copy slice of `values` spanning
`offsets[i]..offsets[i+1]` (caller proves `i < len()`). -/
def ListArray.value_unchecked (a : ListArray) (i : Nat) : DynArray :=
  let se := OffsetsBuffer.start_end_unchecked a.offsets i
  let length := se.2 - se.1
  a.values.sliced_unchecked se.1.toNat length.toNat

/-- `ListArray::value(i)`: asserts `i < len()` (`none` models the panic)
then calls the unchecked form. -/
def ListArray.value (a : ListArray) (i : Nat) : Option DynArray :=
  if i < a.len then some (a.value_unchecked i) else none

/-! ## Interop adapter (spec §4.6; `From` impls in src/array/list/mod.rs) -/

/-- Modelled from the spec: the external runtime's field
(`arrow_schema::Field`) at its interface boundary: name, data type and
nullability.  The external runtime's logical data types are modelled as
shared with ours, since the adapter rewraps them without change. -/
structure ArrowField where
  name : String
  data_type : DataType
  is_nullable : Bool
deriving DecidableEq

/-- Modelled from the spec: the external runtime's `GenericListArray<O>` at
its interface boundary: `new` stores the given parts sharing the underlying
buffers, and `into_parts` returns exactly those parts. -/
structure GenericListArray where
  field : ArrowField
  offsets : List Int
  values : DynArray
  nulls : Option Bitmap
deriving DecidableEq

/-- Modelled from the spec: `Bitmap::from_arrow` — the nulls-bitmap adapter
shares bytes rather than copying, so round-tripping a bitmap through the
boundary is the identity on its bits. -/
def Bitmap.from_arrow (b : Bitmap) : Bitmap := b

/-- Modelled from the spec: `Field::from(arrow_schema::Field)` rewraps the
external field's name, data type and nullability. -/
def Field.from_arrow (f : ArrowField) : Field :=
  .mk f.name f.data_type f.is_nullable

/-- `impl From<ListArray<O>> for GenericListArray<O>`
(src/array/list/mod.rs): reads the child field via `get_child_field`
(`none` models its panic on a shape mismatch), then builds the external
array from a field renamed to the literal `"item"`, the same offsets, the
same child values and the same validity. -/
def ListArray.to_arrow (large : Bool) (value : ListArray) : Option GenericListArray :=
  (ListArray.try_get_child large value.data_type).toOption.map fun field =>
    { field := { name := "item"
                 data_type := field.data_type
                 is_nullable := field.is_nullable }
      offsets := value.offsets
      values := value.values
      nulls := value.validity.map fun x => x }

/-- `impl From<GenericListArray<O>> for ListArray<O>`
(src/array/list/mod.rs): takes the external array apart, rebuilds the data
type as `List`/`LargeList` of the rewrapped field according to the offset
width, and calls the panicking `new` (`none` models the panic). -/
def ListArray.from_arrow (large : Bool) (array1 : GenericListArray) : Option ListArray :=
  let field2 := Field.from_arrow array1.field
  let data_type2 := if large then DataType.largeList field2 else DataType.list field2
  ListArray.new large data_type2 array1.offsets array1.values
    (array1.nulls.map Bitmap.from_arrow)

/-! ## Schema (src/datatypes/schema.rs) -/

/-- The string-keyed `Metadata` map, modelled as an association list. -/
abbrev Metadata := List (String × String)

/-- arrow2's `Schema`: an ordered sequence of fields with metadata. -/
structure Schema where
  fields : List Field
  metadata : Metadata
deriving DecidableEq

/-- `Schema::with_metadata`: attaches the given metadata, keeping the
fields. -/
def Schema.with_metadata (self : Schema) (metadata : Metadata) : Schema :=
  { fields := self.fields, metadata := metadata }

/-- `Schema::filter`: keeps the fields whose `predicate` (over index and
field) evaluates to true, keeping the metadata. -/
def Schema.filter (self : Schema) (predicate : Nat → Field → Bool) : Schema :=
  let fields := self.fields.enum.filterMap fun f =>
    if predicate f.1 f.2 then some f.2 else none
  { fields := fields, metadata := self.metadata }

/-! ## Parquet page types (parquet2, external: modelled from the spec) -/

/-- Little-endian byte expansion of `(n as u32).to_le_bytes()`; the four
bytes are those of `n % 2^32`. -/
def u32_le (n : Nat) : List Nat :=
  [n % 256, n / 256 % 256, n / 65536 % 256, n / 16777216 % 256]

/-- The value of `n as i32` for a `usize` `n`: truncation to 32 bits,
reinterpreted as a signed integer. -/
def usize_as_i32 (n : Nat) : Int :=
  if n % 4294967296 < 2147483648 then ((n % 4294967296 : Nat) : Int)
  else ((n % 4294967296 : Nat) : Int) - 4294967296

/-- Modelled from the spec: parquet2's `Encoding` tags used by this
encoder. -/
inductive Encoding : Type where
  | plain : Encoding
  | rle : Encoding
deriving DecidableEq

/-- Modelled from the spec: parquet2's V1 `DataPageHeader`: value count,
the three encoding tags, and optional statistics (carried opaquely). -/
structure DataPageHeader where
  num_values : Int
  encoding : Encoding
  definition_level_encoding : Encoding
  repetition_level_encoding : Encoding
  statistics : Option Unit
deriving DecidableEq

/-- Modelled from the spec: parquet2's `PageHeader` for V1 data pages. -/
inductive PageHeader : Type where
  | v1 (header : DataPageHeader) : PageHeader
deriving DecidableEq

/-- Modelled from the spec: parquet2's `CompressionCodec` selector.
`uncompressed` selects no codec; `unavailable` models a codec that was not
compiled in (its instantiation fails); `codec` carries an available codec at
its interface boundary as its fallible whole-buffer compress function. -/
inductive CompressionCodec : Type where
  | uncompressed : CompressionCodec
  | unavailable : CompressionCodec
  | codec (compress : List Nat → Except String (List Nat)) : CompressionCodec

/-- Modelled from the spec: parquet2's `create_codec` — instantiating the
selected codec; `uncompressed` yields no codec and an unavailable codec
fails with a codec-construction error. -/
def create_codec (compression : CompressionCodec) :
    Except String (Option (List Nat → Except String (List Nat))) :=
  match compression with
  | .uncompressed => .ok none
  | .unavailable => .error "codec is not available"
  | .codec compress => .ok (some compress)

/-- Modelled from the spec: parquet2's `CompressedPage` as built by
`CompressedPage::new(header, buffer, compression, uncompressed_page_size,
None, None)` — the two trailing arguments are the dictionary page and
statistics slots. -/
structure CompressedPage where
  header : PageHeader
  buffer : List Nat
  compression : CompressionCodec
  uncompressed_page_size : Nat
  dictionary_page : Option Unit
  statistics : Option Unit

/-! ## Variable-length binary arrays (src/array/binary, not under src/) -/

/-- Modelled from the spec: arrow2's `BinaryArray<O>` — a variable-length
binary array made of offsets, a raw byte buffer and an optional validity
(its module is not among the inspected files; the page encoder consumes it
through `len`, `iter` and `values_iter`). -/
structure BinaryArray where
  offsets : List Int
  values : List Nat
  validity : Option Bitmap
deriving DecidableEq

/-- The logical length: `offsets.len_proxy()`. -/
def BinaryArray.len (a : BinaryArray) : Nat := OffsetsBuffer.len_proxy a.offsets

/-- The byte slice of value `i`, spanning `offsets[i]..offsets[i+1]` of the
raw byte buffer. -/
def BinaryArray.value (a : BinaryArray) (i : Nat) : List Nat :=
  let se := OffsetsBuffer.start_end_unchecked a.offsets i
  (a.values.drop se.1.toNat).take (se.2 - se.1).toNat

/-- Modelled from the spec: `values_iter()` yields every physical value in
order, ignoring validity. -/
def BinaryArray.values_iter (a : BinaryArray) : List (List Nat) :=
  (List.range a.len).map a.value

/-- Modelled from the spec: `iter()` zips the physical values with the
validity bits (`none` at an unset bit); with no validity every slot is
present. -/
def BinaryArray.iter (a : BinaryArray) : List (Option (List Nat)) :=
  match a.validity with
  | none => a.values_iter.map some
  | some validity =>
      (List.range a.len).map fun i =>
        if validity.get i then some (a.value i) else none

/-! ## The binary page encoder (src/io/parquet/write/binary.rs) -/

/-- The 1-bit-per-slot presence stream over all `len` logical slots. -/
def presence_stream (validity : Option Bitmap) (len : Nat) : List Bool :=
  match validity with
  | none => List.replicate len true
  | some validity => (List.range len).map validity.get

/-- Modelled from the spec: the run/bit-packed hybrid (RLE) encoding of a
level stream lives in the external parquet2 crate; it is modelled as an
injective byte encoding of the stream — the V1 4-byte little-endian length
prefix followed by one byte per slot. -/
def hybrid_rle_encode (bits : List Bool) : List Nat :=
  u32_le bits.length ++ bits.map fun bit => if bit then 1 else 0

/-- Modelled from the spec: `utils::write_def_levels` (src/io/parquet/write/
utils.rs is not among the inspected files) — if `is_optional`, emit the
definition-level section, always, even with zero nulls: the hybrid encoding
of the presence stream over all `len` slots; otherwise emit nothing.  It
cannot fail on the nominal path, so it is modelled total. -/
def write_def_levels (is_optional : Bool) (validity : Option Bitmap) (len : Nat) :
    List Nat :=
  if is_optional then hybrid_rle_encode (presence_stream validity len) else []

/-- `array_to_page_v1` (src/io/parquet/write/binary.rs): writes the
definition levels, appends the values — each one length-prefixed with
4 little-endian bytes — from `iter()` (present values only) when
`is_optional` and from `values_iter()` (every physical slot) otherwise,
records the buffer length before compression, applies the created codec if
any, and wraps everything in a V1 header carrying `len() as i32` values,
PLAIN value encoding, RLE level encodings and no statistics. -/
def array_to_page_v1 (array : BinaryArray) (compression : CompressionCodec)
    (is_optional : Bool) : Except String CompressedPage :=
  let validity := array.validity
  let buffer := write_def_levels is_optional validity array.len
  let buffer :=
    if is_optional then
      array.iter.foldl (fun buffer x =>
        match x with
        | some x => buffer ++ u32_le x.length ++ x
        | none => buffer) buffer
    else
      array.values_iter.foldl (fun buffer x => buffer ++ u32_le x.length ++ x) buffer
  let uncompressed_page_size := buffer.length
  let header := PageHeader.v1
    { num_values := usize_as_i32 array.len
      encoding := .plain
      definition_level_encoding := .rle
      repetition_level_encoding := .rle
      statistics := none }
  match create_codec compression with
  | .error e => .error e
  | .ok (some codec) =>
    match codec buffer with
    | .error e => .error e
    | .ok tmp =>
      .ok (CompressedPage.mk header tmp compression uncompressed_page_size none none)
  | .ok none =>
    .ok (CompressedPage.mk header buffer compression uncompressed_page_size none none)

/-! ## Derived forms used by the statements below -/

/-- The data page header carried by a V1 page header. -/
def PageHeader.data : PageHeader → DataPageHeader
  | .v1 header => header

/-- The page payload assembled by `array_to_page_v1` before compression,
written as a concatenation: the definition-level section, then the encoded
value section — present values only under `is_optional`, every physical
slot otherwise. -/
def page_payload (array : BinaryArray) (is_optional : Bool) : List Nat :=
  write_def_levels is_optional array.validity array.len ++
    (if is_optional then
      (array.iter.filterMap id).flatMap fun x => u32_le x.length ++ x
    else
      array.values_iter.flatMap fun x => u32_le x.length ++ x)

/-- The payload as claim C2 words it: the definition-level section when
`is_optional`, then — for each non-null value in logical order, null slots
contributing zero bytes — a 4-byte little-endian length prefix followed by
the raw bytes. -/
def c2_claimed_payload (array : BinaryArray) (is_optional : Bool) : List Nat :=
  (if is_optional then write_def_levels true array.validity array.len else []) ++
    (array.iter.filterMap id).flatMap fun x => u32_le x.length ++ x

/-- The error condition of claim C1 as worded: the last offset differs from
the child length, the validity length disagrees, the data type's shape does
not match the offset width, or the declared child type disagrees. -/
def c1_claimed_failure (large : Bool) (data_type : DataType) (offsets : List Int)
    (values : DynArray) (validity : Option Bitmap) : Prop :=
  OffsetsBuffer.last offsets ≠ (values.len : Int)
  ∨ validity.any (fun b => b.len != OffsetsBuffer.len_proxy offsets) = true
  ∨ (ListArray.try_get_child large data_type).toOption = none
  ∨ (ListArray.try_get_child large data_type).toOption.any
      (fun f => f.data_type != values.data_type) = true

/-- The error condition `try_new` actually enforces: as claim C1, except
that the bounds check fails only when the last offset exceeds the child
length. -/
def construction_failure (large : Bool) (data_type : DataType) (offsets : List Int)
    (values : DynArray) (validity : Option Bitmap) : Prop :=
  OffsetsBuffer.last offsets > (values.len : Int)
  ∨ validity.any (fun b => b.len != OffsetsBuffer.len_proxy offsets) = true
  ∨ (ListArray.try_get_child large data_type).toOption = none
  ∨ (ListArray.try_get_child large data_type).toOption.any
      (fun f => f.data_type != values.data_type) = true

instance (large : Bool) (data_type : DataType) (offsets : List Int)
    (values : DynArray) (validity : Option Bitmap) :
    Decidable (construction_failure large data_type offsets values validity) := by
  unfold construction_failure; infer_instance

instance (large : Bool) (data_type : DataType) (offsets : List Int)
    (values : DynArray) (validity : Option Bitmap) :
    Decidable (c1_claimed_failure large data_type offsets values validity) := by
  unfold c1_claimed_failure; infer_instance

/-! ## Helper lemmas -/

theorem filterMap_if_eq_filter_map {α β : Type} (p : α → Bool) (g : α → β) (l : List α) :
    l.filterMap (fun x => if p x then some (g x) else none)
      = (l.filter p).map g := by
  induction l with
  | nil => rfl
  | cons a l ih =>
      by_cases h : p a <;> simp [List.filterMap_cons, List.filter_cons, h, ih]

theorem wf_nonneg {offsets : List Int} (h : OffsetsBuffer.wf offsets) (i : Nat) :
    0 ≤ offsets.getD i 0 := by
  by_cases hi : i < offsets.length
  · rw [List.getD_eq_getElem _ _ hi]
    exact h.2.2 _ (List.getElem_mem hi)
  · simp [List.getD_eq_getElem?_getD, List.getElem?_eq_none (Nat.le_of_not_lt hi)]

theorem wf_mono {offsets : List Int} (h : OffsetsBuffer.wf offsets) {i j : Nat}
    (hij : i ≤ j) (hj : j < offsets.length) : offsets.getD i 0 ≤ offsets.getD j 0 := by
  have hi : i < offsets.length := Nat.lt_of_le_of_lt hij hj
  rw [List.getD_eq_getElem _ _ hi, List.getD_eq_getElem _ _ hj]
  rcases Nat.eq_or_lt_of_le hij with rfl | hlt
  · exact le_refl _
  · have hp : offsets.Pairwise (· ≤ ·) :=
      (List.chain'_iff_pairwise).mp h.2.1
    exact List.pairwise_iff_getElem.mp hp i j hi hj hlt

theorem last_eq_getD {offsets : List Int} (h : offsets ≠ []) :
    OffsetsBuffer.last offsets = offsets.getD (offsets.length - 1) 0 := by
  unfold OffsetsBuffer.last
  have hlen : 0 < offsets.length := List.length_pos.mpr h
  rw [List.getD_eq_getElem _ _ (by omega), List.getLastD_eq_getLast?,
    List.getLast?_eq_getElem?, List.getElem?_eq_getElem (by omega)]
  rfl

theorem wf_le_last {offsets : List Int} (h : OffsetsBuffer.wf offsets) {i : Nat}
    (hi : i < offsets.length) : offsets.getD i 0 ≤ OffsetsBuffer.last offsets := by
  rw [last_eq_getD h.1]
  exact wf_mono h (by omega) (by omega)

theorem try_new_eq (large : Bool) (data_type : DataType) (offsets : List Int)
    (values : DynArray) (validity : Option Bitmap) :
    ListArray.try_new large data_type offsets values validity =
      if OffsetsBuffer.last offsets > (values.len : Int) then
        .error "offsets must not exceed the values length"
      else if validity.any (fun b => b.len != OffsetsBuffer.len_proxy offsets) then
        .error "validity mask length must match the number of values"
      else
        match ListArray.try_get_child large data_type with
        | .error e => .error e
        | .ok child =>
          if child.data_type ≠ values.data_type then
            .error "ListArray child DataType must match"
          else
            .ok ⟨data_type, offsets, values, validity⟩ := by
  unfold ListArray.try_new try_check_offsets_bounds
  by_cases h1 : OffsetsBuffer.last offsets > (values.len : Int) <;> simp [h1]

theorem try_new_eq_ok_iff {large : Bool} {data_type : DataType} {offsets : List Int}
    {values : DynArray} {validity : Option Bitmap} {a : ListArray} :
    ListArray.try_new large data_type offsets values validity = .ok a ↔
      (OffsetsBuffer.last offsets ≤ (values.len : Int)
       ∧ (∀ b, validity = some b → b.len = OffsetsBuffer.len_proxy offsets)
       ∧ (∃ child, ListArray.try_get_child large data_type = .ok child
            ∧ child.data_type = values.data_type)
       ∧ a = ⟨data_type, offsets, values, validity⟩) := by
  rw [try_new_eq]
  by_cases h1 : OffsetsBuffer.last offsets > (values.len : Int)
  · rw [if_pos h1]
    constructor
    · intro h; simp at h
    · rintro ⟨h, -⟩; omega
  · rw [if_neg h1]
    by_cases h2 : validity.any (fun b => b.len != OffsetsBuffer.len_proxy offsets) = true
    · rw [if_pos h2]
      constructor
      · intro h; simp at h
      · rintro ⟨-, hv, -⟩
        rcases validity with - | b
        · simp at h2
        · simp only [Option.any_some, bne_iff_ne] at h2
          exact (h2 (hv b rfl)).elim
    · rw [if_neg h2]
      rcases h3 : ListArray.try_get_child large data_type with e | child
      · constructor
        · intro h; simp at h
        · rintro ⟨-, -, ⟨c, hc, -⟩, -⟩
          simp at hc
      · show (if child.data_type ≠ values.data_type then
            (Except.error "ListArray child DataType must match" : Except String ListArray)
          else .ok ⟨data_type, offsets, values, validity⟩) = .ok a ↔ _
        by_cases h4 : child.data_type ≠ values.data_type
        · rw [if_pos h4]
          constructor
          · intro h; simp at h
          · rintro ⟨-, -, ⟨c, hc, hcd⟩, -⟩
            cases hc
            exact (h4 hcd).elim
        · rw [if_neg h4]
          push_neg at h4
          constructor
          · intro h
            simp only [Except.ok.injEq] at h
            refine ⟨by omega, ?_, ⟨child, rfl, h4⟩, h.symm⟩
            intro b hb
            subst hb
            simp only [Option.any_some] at h2
            simpa using h2
          · rintro ⟨-, -, -, rfl⟩; rfl

theorem slice_getD (l : List Int) (o t k : Nat) (hk : k < t) (ho : o + k < l.length) :
    ((l.drop o).take t).getD k 0 = l.getD (o + k) 0 := by
  rw [List.getD_eq_getElem _ _ (by simp [List.length_take, List.length_drop]; omega),
    List.getD_eq_getElem _ _ ho, List.getElem_take, List.getElem_drop]

/-- C3: for a validly constructed list container and `i < len()`, `value(i)`
returns (without panicking) an array of length `offsets[i+1] - offsets[i]`,
namely the zero-copy slice of the child values starting at `offsets[i]` and
spanning that many items. -/
theorem value_len_eq_offset_diff (large : Bool) (a : ListArray)
    (hwf : OffsetsBuffer.wf a.offsets)
    (hok : ListArray.try_new large a.data_type a.offsets a.values a.validity = .ok a)
    (i : Nat) (hi : i < a.len) :
    ∃ v, a.value i = some v
      ∧ (v.len : Int) = a.offsets.getD (i + 1) 0 - a.offsets.getD i 0
      ∧ v = a.values.sliced_unchecked (a.offsets.getD i 0).toNat
          ((a.offsets.getD (i + 1) 0).toNat - (a.offsets.getD i 0).toNat) := by
  have hbound : OffsetsBuffer.last a.offsets ≤ (a.values.len : Int) :=
    (try_new_eq_ok_iff.mp hok).1
  have hlen : i + 1 < a.offsets.length := by
    unfold ListArray.len OffsetsBuffer.len_proxy at hi; omega
  have hs0 : 0 ≤ a.offsets.getD i 0 := wf_nonneg hwf i
  have hmono : a.offsets.getD i 0 ≤ a.offsets.getD (i + 1) 0 :=
    wf_mono hwf (Nat.le_succ i) hlen
  have hlast : a.offsets.getD (i + 1) 0 ≤ OffsetsBuffer.last a.offsets :=
    wf_le_last hwf hlen
  have hitems : a.values.len = a.values.items.length := rfl
  refine ⟨a.value_unchecked i, by simp [ListArray.value, hi], ?_, ?_⟩
  · unfold ListArray.value_unchecked OffsetsBuffer.start_end_unchecked
      DynArray.sliced_unchecked DynArray.len
    simp only [List.length_take, List.length_drop]
    have hminle :
        (a.offsets.getD (i + 1) 0 - a.offsets.getD i 0).toNat ≤
          a.values.items.length - (a.offsets.getD i 0).toNat := by omega
    rw [min_eq_left hminle]
    omega
  · unfold ListArray.value_unchecked OffsetsBuffer.start_end_unchecked
    simp only []
    congr 1
    omega

/-- Witness for C3: the spec's concrete scenario, element 1 of the slice
source (offsets `[0,2,5,5,7,8]`, two-element window `2..5`). -/
theorem value_len_eq_offset_diff_witness :
    ∃ v, ListArray.value
        ⟨.list (.mk "item" .int16 true), [0, 2, 5, 5, 7, 8],
          ⟨.int16, [1, 2, 11, 12, 13, 31, 32, 41]⟩, none⟩ 1 = some v
      ∧ (v.len : Int) = ([0, 2, 5, 5, 7, 8] : List Int).getD (1 + 1) 0 -
          ([0, 2, 5, 5, 7, 8] : List Int).getD 1 0
      ∧ v = DynArray.sliced_unchecked ⟨.int16, [1, 2, 11, 12, 13, 31, 32, 41]⟩
          (([0, 2, 5, 5, 7, 8] : List Int).getD 1 0).toNat
          ((([0, 2, 5, 5, 7, 8] : List Int).getD (1 + 1) 0).toNat -
            (([0, 2, 5, 5, 7, 8] : List Int).getD 1 0).toNat) :=
  value_len_eq_offset_diff false
    ⟨.list (.mk "item" .int16 true), [0, 2, 5, 5, 7, 8],
      ⟨.int16, [1, 2, 11, 12, 13, 31, 32, 41]⟩, none⟩
    (by decide) (by decide) 1 (by decide)

/-- C4: slicing commutes with element access: for an in-range window
`(offset, length)` and `i < length`, `slice` succeeds and the sliced
container's `value(i)` equals the original's `value(i + offset)`. -/
theorem slice_value_eq (a : ListArray) (offset length i : Nat)
    (hw : offset + length ≤ a.len) (hi : i < length) :
    ∃ s, a.slice offset length = some s ∧ s.value i = a.value (i + offset) := by
  have hw' : offset + length + 1 ≤ a.offsets.length := by
    unfold ListArray.len OffsetsBuffer.len_proxy at hw; omega
  refine ⟨a.slice_unchecked offset length, by simp [ListArray.slice, hw], ?_⟩
  have hsoff : (a.slice_unchecked offset length).offsets =
      (a.offsets.drop offset).take (length + 1) := rfl
  have hslen : (a.slice_unchecked offset length).len = length := by
    unfold ListArray.len OffsetsBuffer.len_proxy
    rw [hsoff]
    simp only [List.length_take, List.length_drop]
    omega
  unfold ListArray.value
  rw [if_pos (by rw [hslen]; exact hi),
    if_pos (show i + offset < a.len by
      unfold ListArray.len OffsetsBuffer.len_proxy; omega)]
  unfold ListArray.value_unchecked OffsetsBuffer.start_end_unchecked
  have hv : (a.slice_unchecked offset length).values = a.values := rfl
  have h1 : (a.slice_unchecked offset length).offsets.getD i 0 =
      a.offsets.getD (i + offset) 0 := by
    rw [hsoff, slice_getD _ _ _ _ (by omega) (by omega)]
    congr 1
    omega
  have h2 : (a.slice_unchecked offset length).offsets.getD (i + 1) 0 =
      a.offsets.getD (i + offset + 1) 0 := by
    rw [hsoff, slice_getD _ _ _ _ (by omega) (by omega)]
    congr 1
    omega
  rw [hv, h1, h2]

/-- Witness for C4: the spec's concrete scenario — slicing
(offsets `[0,2,5,5,7,8]`) by `(1, 3)` and reading element 1. -/
theorem slice_value_eq_witness :
    ∃ s, ListArray.slice
        ⟨.list (.mk "item" .int16 true), [0, 2, 5, 5, 7, 8],
          ⟨.int16, [1, 2, 11, 12, 13, 31, 32, 41]⟩, none⟩ 1 3 = some s
      ∧ s.value 1 = ListArray.value
          ⟨.list (.mk "item" .int16 true), [0, 2, 5, 5, 7, 8],
            ⟨.int16, [1, 2, 11, 12, 13, 31, 32, 41]⟩, none⟩ (1 + 1) :=
  slice_value_eq
    ⟨.list (.mk "item" .int16 true), [0, 2, 5, 5, 7, 8],
      ⟨.int16, [1, 2, 11, 12, 13, 31, 32, 41]⟩, none⟩
    1 3 1 (by decide) (by decide)

/-- C1 (amended): `try_new` returns an error value — it is a total function,
so it can never panic — exactly when the last offset exceeds the child
length, the validity length disagrees with `len_proxy`, the data type's
shape is not the variant matching the offset width, or the declared child
data type disagrees with the child's; otherwise it returns the constructed
array. -/
theorem try_new_error_iff (large : Bool) (data_type : DataType) (offsets : List Int)
    (values : DynArray) (validity : Option Bitmap) :
    ((ListArray.try_new large data_type offsets values validity).toOption = none ↔
      construction_failure large data_type offsets values validity)
    ∧ (¬ construction_failure large data_type offsets values validity →
        ListArray.try_new large data_type offsets values validity =
          .ok ⟨data_type, offsets, values, validity⟩) := by
  have hok : ¬ construction_failure large data_type offsets values validity →
      ListArray.try_new large data_type offsets values validity =
        .ok ⟨data_type, offsets, values, validity⟩ := by
    intro hnof
    unfold construction_failure at hnof
    push_neg at hnof
    obtain ⟨hn1, hn2, hn3, hn4⟩ := hnof
    rcases h3 : ListArray.try_get_child large data_type with e | child
    · exact absurd (by simp [h3, Except.toOption]) hn3
    · refine try_new_eq_ok_iff.mpr ⟨by omega, ?_, ⟨child, h3, ?_⟩, rfl⟩
      · intro b hb
        subst hb
        simp only [Option.any_some, bne_eq_false_iff_eq] at hn2
        simpa using hn2
      · rw [h3] at hn4
        simp only [Except.toOption, Option.any_some, bne_eq_false_iff_eq] at hn4
        simpa using hn4
  refine ⟨?_, hok⟩
  constructor
  · intro hnone
    by_contra hnf
    rw [hok hnf] at hnone
    simp [Except.toOption] at hnone
  · intro hf
    rcases h : ListArray.try_new large data_type offsets values validity with e | a
    · simp [Except.toOption]
    · exfalso
      obtain ⟨hb, hv, ⟨child, hc, hcd⟩, -⟩ := try_new_eq_ok_iff.mp h
      unfold construction_failure at hf
      rcases hf with h1 | h2 | h3 | h4
      · omega
      · rcases validity with - | b
        · simp at h2
        · simp only [Option.any_some, bne_iff_ne] at h2
          exact h2 (hv b rfl)
      · rw [hc] at h3; simp [Except.toOption] at h3
      · rw [hc] at h4
        simp only [Except.toOption, Option.any_some, bne_iff_ne] at h4
        exact h4 hcd

/-- Witness for C1 at a concrete failing and a concrete succeeding input. -/
theorem try_new_error_iff_witness :
    ((ListArray.try_new false (.list (.mk "item" .int16 true)) [0, 3]
        ⟨.int16, [1, 2]⟩ none).toOption = none ↔
      construction_failure false (.list (.mk "item" .int16 true)) [0, 3]
        ⟨.int16, [1, 2]⟩ none)
    ∧ ListArray.try_new false (.list (.mk "item" .int16 true)) [0, 2]
        ⟨.int16, [1, 2]⟩ none =
        .ok ⟨.list (.mk "item" .int16 true), [0, 2], ⟨.int16, [1, 2]⟩, none⟩ :=
  ⟨(try_new_error_iff false (.list (.mk "item" .int16 true)) [0, 3]
      ⟨.int16, [1, 2]⟩ none).1,
    (try_new_error_iff false (.list (.mk "item" .int16 true)) [0, 2]
      ⟨.int16, [1, 2]⟩ none).2 (by decide)⟩

/-- Counterexample to C1 as stated: with offsets `[0]` over a one-element
child (last offset `0 ≠ 1` = child length) and everything else agreeing,
`try_new` succeeds, while the claim demands an error whenever the last
offset does not equal the child's length. -/
theorem try_new_error_iff_counterexample :
    ¬ (((ListArray.try_new false (.list (.mk "item" .int16 true)) [0]
          ⟨.int16, [5]⟩ none).toOption = none) ↔
        c1_claimed_failure false (.list (.mk "item" .int16 true)) [0]
          ⟨.int16, [5]⟩ none) := by
  decide

/-- C9: `Schema::with_metadata` attaches the given metadata and keeps the
fields; `Schema::filter` keeps exactly the fields on which the predicate is
true, in their original order, and keeps the metadata. -/
theorem schema_with_metadata_and_filter (s : Schema) (m : Metadata)
    (p : Nat → Field → Bool) :
    (s.with_metadata m).metadata = m ∧ (s.with_metadata m).fields = s.fields ∧
    (s.filter p).fields = (s.fields.enum.filter fun f => p f.1 f.2).map Prod.snd ∧
    (s.filter p).metadata = s.metadata := by
  refine ⟨rfl, rfl, ?_, rfl⟩
  exact filterMap_if_eq_filter_map (fun f => p f.1 f.2) Prod.snd s.fields.enum

/-- C6: slicing a list container that holds a validity bitmap narrows the
bitmap to the window but never replaces the validity with `none`: the
unset-bit computation the source performs on the sliced bitmap is
discarded, so the validity stays `some` of the sliced bitmap. -/
theorem slice_unchecked_keeps_validity (a : ListArray) (offset length : Nat)
    (b : Bitmap) (hb : a.validity = some b) (_hrange : offset + length ≤ a.len) :
    (a.slice_unchecked offset length).validity
      = some (b.slice_unchecked offset length) := by
  simp [ListArray.slice_unchecked, hb]

/-- Witness for C6 at a concrete input whose sliced window has zero unset
bits: the validity is still `some` after slicing. -/
theorem slice_unchecked_keeps_validity_witness :
    (Bitmap.slice_unchecked ⟨[true, true, true]⟩ 1 2).unset_bits = 0 ∧
    (ListArray.slice_unchecked
        ⟨.list (.mk "item" .int16 true), [0, 1, 2, 3], ⟨.int16, [1, 2, 3]⟩,
          some ⟨[true, true, true]⟩⟩ 1 2).validity
      = some (Bitmap.slice_unchecked ⟨[true, true, true]⟩ 1 2) :=
  ⟨by decide,
    slice_unchecked_keeps_validity
      ⟨.list (.mk "item" .int16 true), [0, 1, 2, 3], ⟨.int16, [1, 2, 3]⟩,
        some ⟨[true, true, true]⟩⟩ 1 2 ⟨[true, true, true]⟩ rfl (by decide)⟩

/-- C7: `slice(offset, length)` panics exactly when
`offset + length > len()`; otherwise it returns the container whose offsets
are the window of `length + 1` entries starting at `offset` and whose
validity, if any, is sliced over `[offset, length)`, with the data type and
child values untouched. -/
theorem slice_panics_iff (a : ListArray) (offset length : Nat) :
    (a.slice offset length = none ↔ offset + length > a.len) ∧
    (offset + length ≤ a.len →
      a.slice offset length = some
        { data_type := a.data_type
          offsets := OffsetsBuffer.slice_unchecked a.offsets offset (length + 1)
          values := a.values
          validity := a.validity.map fun b => b.slice_unchecked offset length }) := by
  constructor
  · unfold ListArray.slice
    split <;> simp <;> omega
  · intro h
    simp [ListArray.slice, h, ListArray.slice_unchecked]

/-- Witness for C7 at a concrete input. -/
theorem slice_panics_iff_witness :
    ((ListArray.slice ⟨.list (.mk "item" .int16 true), [0, 1, 3], ⟨.int16, [5, 6, 7]⟩, none⟩
        1 1 = none) ↔ 1 + 1 > (ListArray.mk (.list (.mk "item" .int16 true)) [0, 1, 3]
          ⟨.int16, [5, 6, 7]⟩ none).len) ∧
    (1 + 1 ≤ (ListArray.mk (.list (.mk "item" .int16 true)) [0, 1, 3]
        ⟨.int16, [5, 6, 7]⟩ none).len →
      ListArray.slice ⟨.list (.mk "item" .int16 true), [0, 1, 3], ⟨.int16, [5, 6, 7]⟩, none⟩
          1 1 = some
        { data_type := .list (.mk "item" .int16 true)
          offsets := OffsetsBuffer.slice_unchecked [0, 1, 3] 1 (1 + 1)
          values := ⟨.int16, [5, 6, 7]⟩
          validity := Option.map (fun b => b.slice_unchecked 1 1) (none : Option Bitmap) }) :=
  slice_panics_iff ⟨.list (.mk "item" .int16 true), [0, 1, 3], ⟨.int16, [5, 6, 7]⟩, none⟩ 1 1

theorem foldl_append_flatMap {α : Type} (g : α → List Nat) (l : List α)
    (init : List Nat) :
    l.foldl (fun buffer x => buffer ++ g x) init = init ++ l.flatMap g := by
  induction l generalizing init with
  | nil => simp
  | cons a l ih => simp [ih, List.append_assoc]

theorem flatMap_option_getD (g : List Nat → List Nat) (l : List (Option (List Nat))) :
    l.flatMap (fun x => (x.map g).getD []) = (l.filterMap id).flatMap g := by
  induction l with
  | nil => rfl
  | cons a l ih => cases a <;> simp [ih]

theorem assembled_buffer_eq (array : BinaryArray) (is_optional : Bool) :
    (if is_optional then
      array.iter.foldl (fun buffer x =>
        match x with
        | some x => buffer ++ u32_le x.length ++ x
        | none => buffer) (write_def_levels is_optional array.validity array.len)
    else
      array.values_iter.foldl (fun buffer x => buffer ++ u32_le x.length ++ x)
        (write_def_levels is_optional array.validity array.len))
    = page_payload array is_optional := by
  cases is_optional
  · have h := foldl_append_flatMap (fun x => u32_le x.length ++ x) array.values_iter
      (write_def_levels false array.validity array.len)
    simpa [page_payload] using h
  · have hstep : (fun (buffer : List Nat) (x : Option (List Nat)) =>
        match x with
        | some x => buffer ++ u32_le x.length ++ x
        | none => buffer) =
        fun buffer x => buffer ++ ((x.map fun v => u32_le v.length ++ v).getD []) := by
      funext buffer x
      cases x <;> simp [List.append_assoc]
    have h := foldl_append_flatMap (fun x => ((x.map fun v => u32_le v.length ++ v).getD []))
      array.iter (write_def_levels true array.validity array.len)
    rw [flatMap_option_getD] at h
    simp only [page_payload, hstep]
    simpa using h

theorem presence_stream_length (validity : Option Bitmap) (len : Nat) :
    (presence_stream validity len).length = len := by
  cases validity <;> simp [presence_stream]

theorem usize_as_i32_of_lt {n : Nat} (h : n < 2147483648) :
    usize_as_i32 n = (n : Int) := by
  unfold usize_as_i32
  rw [Nat.mod_eq_of_lt (by omega)]
  rw [if_pos (by omega)]

/-- C8: for any page the encoder returns, `uncompressed_page_size` is the
byte length of the assembled payload before compression; with no codec the
buffer is that payload unmodified, so compressed size equals uncompressed
size; and the header records PLAIN value encoding, RLE definition- and
repetition-level encodings, and no statistics. -/
theorem array_to_page_v1_sizes (array : BinaryArray) (compression : CompressionCodec)
    (is_optional : Bool) (page : CompressedPage)
    (h : array_to_page_v1 array compression is_optional = .ok page) :
    page.uncompressed_page_size = (page_payload array is_optional).length
    ∧ (compression = .uncompressed →
        page.buffer = page_payload array is_optional
        ∧ page.buffer.length = page.uncompressed_page_size)
    ∧ page.header.data.encoding = .plain
    ∧ page.header.data.definition_level_encoding = .rle
    ∧ page.header.data.repetition_level_encoding = .rle
    ∧ page.header.data.statistics = none := by
  unfold array_to_page_v1 at h
  rcases compression with - | - | compress
  · simp only [create_codec] at h
    cases h
    rw [assembled_buffer_eq]
    exact ⟨rfl, fun _ => ⟨rfl, rfl⟩, rfl, rfl, rfl, rfl⟩
  · simp only [create_codec] at h
    cases h
  · simp only [create_codec] at h
    rcases hc : compress (if is_optional then
        array.iter.foldl (fun buffer x =>
          match x with
          | some x => buffer ++ u32_le x.length ++ x
          | none => buffer) (write_def_levels is_optional array.validity array.len)
      else
        array.values_iter.foldl (fun buffer x => buffer ++ u32_le x.length ++ x)
          (write_def_levels is_optional array.validity array.len)) with e | tmp
    · rw [hc] at h; cases h
    · rw [hc] at h
      cases h
      rw [assembled_buffer_eq]
      refine ⟨rfl, ?_, rfl, rfl, rfl, rfl⟩
      intro heq
      exact nomatch heq

/-- Witness for C8 at a concrete optional input with one null, without a
codec. -/
theorem array_to_page_v1_sizes_witness :
    (CompressedPage.mk
        (PageHeader.v1 ⟨2, .plain, .rle, .rle, none⟩)
        [2, 0, 0, 0, 1, 0, 1, 0, 0, 0, 7] .uncompressed 11 none
        none).uncompressed_page_size =
      (page_payload ⟨[0, 1, 2], [7, 8], some ⟨[true, false]⟩⟩ true).length
    ∧ (CompressionCodec.uncompressed = .uncompressed →
        (CompressedPage.mk (PageHeader.v1 ⟨2, .plain, .rle, .rle, none⟩)
            [2, 0, 0, 0, 1, 0, 1, 0, 0, 0, 7] .uncompressed 11 none none).buffer =
          page_payload ⟨[0, 1, 2], [7, 8], some ⟨[true, false]⟩⟩ true
        ∧ (CompressedPage.mk (PageHeader.v1 ⟨2, .plain, .rle, .rle, none⟩)
            [2, 0, 0, 0, 1, 0, 1, 0, 0, 0, 7] .uncompressed 11 none
            none).buffer.length =
          (CompressedPage.mk (PageHeader.v1 ⟨2, .plain, .rle, .rle, none⟩)
            [2, 0, 0, 0, 1, 0, 1, 0, 0, 0, 7] .uncompressed 11 none
            none).uncompressed_page_size)
    ∧ (CompressedPage.mk (PageHeader.v1 ⟨2, .plain, .rle, .rle, none⟩)
        [2, 0, 0, 0, 1, 0, 1, 0, 0, 0, 7] .uncompressed 11 none
        none).header.data.encoding = .plain
    ∧ (CompressedPage.mk (PageHeader.v1 ⟨2, .plain, .rle, .rle, none⟩)
        [2, 0, 0, 0, 1, 0, 1, 0, 0, 0, 7] .uncompressed 11 none
        none).header.data.definition_level_encoding = .rle
    ∧ (CompressedPage.mk (PageHeader.v1 ⟨2, .plain, .rle, .rle, none⟩)
        [2, 0, 0, 0, 1, 0, 1, 0, 0, 0, 7] .uncompressed 11 none
        none).header.data.repetition_level_encoding = .rle
    ∧ (CompressedPage.mk (PageHeader.v1 ⟨2, .plain, .rle, .rle, none⟩)
        [2, 0, 0, 0, 1, 0, 1, 0, 0, 0, 7] .uncompressed 11 none
        none).header.data.statistics = none :=
  array_to_page_v1_sizes ⟨[0, 1, 2], [7, 8], some ⟨[true, false]⟩⟩ .uncompressed true
    (CompressedPage.mk (PageHeader.v1 ⟨2, .plain, .rle, .rle, none⟩)
      [2, 0, 0, 0, 1, 0, 1, 0, 0, 0, 7] .uncompressed 11 none none) rfl

/-- C10 (amended): the header's `num_values` is `len() as i32` — counting
null slots as well as present values, regardless of `is_optional` or the
null pattern — which equals `len()` exactly when `len()` fits in a signed
32-bit integer. -/
theorem num_values_eq_len (array : BinaryArray) (compression : CompressionCodec)
    (is_optional : Bool) (page : CompressedPage)
    (h : array_to_page_v1 array compression is_optional = .ok page) :
    page.header.data.num_values = usize_as_i32 array.len
    ∧ (array.len < 2147483648 → page.header.data.num_values = (array.len : Int)) := by
  unfold array_to_page_v1 at h
  rcases compression with - | - | compress
  · simp only [create_codec] at h
    cases h
    exact ⟨rfl, fun hlt => usize_as_i32_of_lt hlt⟩
  · simp only [create_codec] at h
    cases h
  · simp only [create_codec] at h
    rcases hc : compress (if is_optional then
        array.iter.foldl (fun buffer x =>
          match x with
          | some x => buffer ++ u32_le x.length ++ x
          | none => buffer) (write_def_levels is_optional array.validity array.len)
      else
        array.values_iter.foldl (fun buffer x => buffer ++ u32_le x.length ++ x)
          (write_def_levels is_optional array.validity array.len)) with e | tmp
    · rw [hc] at h; cases h
    · rw [hc] at h
      cases h
      exact ⟨rfl, fun hlt => usize_as_i32_of_lt hlt⟩

/-- Witness for C10 at a concrete input with one null slot: `num_values`
counts both slots. -/
theorem num_values_eq_len_witness :
    (CompressedPage.mk (PageHeader.v1 ⟨2, .plain, .rle, .rle, none⟩)
        [1, 0, 0, 0, 7, 1, 0, 0, 0, 8] .uncompressed 10 none
        none).header.data.num_values =
      usize_as_i32 (BinaryArray.mk [0, 1, 2] [7, 8] (some ⟨[true, false]⟩)).len
    ∧ ((BinaryArray.mk [0, 1, 2] [7, 8] (some ⟨[true, false]⟩)).len < 2147483648 →
        (CompressedPage.mk (PageHeader.v1 ⟨2, .plain, .rle, .rle, none⟩)
            [1, 0, 0, 0, 7, 1, 0, 0, 0, 8] .uncompressed 10 none
            none).header.data.num_values =
          ((BinaryArray.mk [0, 1, 2] [7, 8] (some ⟨[true, false]⟩)).len : Int)) :=
  num_values_eq_len ⟨[0, 1, 2], [7, 8], some ⟨[true, false]⟩⟩ .uncompressed false
    (CompressedPage.mk (PageHeader.v1 ⟨2, .plain, .rle, .rle, none⟩)
      [1, 0, 0, 0, 7, 1, 0, 0, 0, 8] .uncompressed 10 none none) rfl

theorem num_values_map (array : BinaryArray) (is_optional : Bool) :
    (array_to_page_v1 array .uncompressed is_optional).toOption.map
      (fun page => page.header.data.num_values) = some (usize_as_i32 array.len) := by
  unfold array_to_page_v1
  simp only [create_codec]
  rfl

theorem len_of_replicate_offsets (n : Nat) :
    (BinaryArray.mk (List.replicate (n + 1) 0) [] none).len = n := by
  unfold BinaryArray.len OffsetsBuffer.len_proxy
  rw [List.length_replicate]
  omega

/-- Counterexample to C10 as stated: an array of 2^31 (empty) values — built
from 2^31 + 1 zero offsets — is encoded with `num_values = -2^31`, because
`len() as i32` wraps, while the claim demands `num_values = len() = 2^31`. -/
theorem num_values_eq_len_counterexample :
    (array_to_page_v1 ⟨List.replicate (2147483648 + 1) 0, [], none⟩ .uncompressed
          false).toOption.map (fun page => page.header.data.num_values) =
      some (-2147483648)
    ∧ ((BinaryArray.mk (List.replicate (2147483648 + 1) 0) [] none).len : Int) =
        2147483648 := by
  constructor
  · rw [num_values_map, len_of_replicate_offsets 2147483648]
    unfold usize_as_i32
    norm_num
  · rw [len_of_replicate_offsets 2147483648]
    norm_num

/-- C2 (amended): with no codec, the page buffer is assembled as: first —
when `is_optional`, and always then, even with zero nulls — the
definition-level section encoding the presence stream over all `len()`
logical slots; then the value section, holding, when `is_optional`, each
present value in logical order (null slots contributing zero bytes) as a
4-byte little-endian length prefix followed by its raw bytes, but, when
`is_optional` is false, every physical slot's value, nulls included. -/
theorem page_buffer_layout (array : BinaryArray) (is_optional : Bool)
    (page : CompressedPage)
    (h : array_to_page_v1 array .uncompressed is_optional = .ok page) :
    page.buffer = page_payload array is_optional
    ∧ (is_optional = true →
        write_def_levels true array.validity array.len =
          hybrid_rle_encode (presence_stream array.validity array.len)
        ∧ (presence_stream array.validity array.len).length = array.len)
    ∧ (is_optional = false → write_def_levels false array.validity array.len = []) := by
  unfold array_to_page_v1 at h
  simp only [create_codec] at h
  cases h
  exact ⟨assembled_buffer_eq array is_optional,
    fun _ => ⟨rfl, presence_stream_length array.validity array.len⟩, fun _ => rfl⟩

/-- Witness for C2 at a concrete optional input with one null. -/
theorem page_buffer_layout_witness :
    (CompressedPage.mk (PageHeader.v1 ⟨2, .plain, .rle, .rle, none⟩)
        [2, 0, 0, 0, 1, 0, 1, 0, 0, 0, 7] .uncompressed 11 none none).buffer =
      page_payload ⟨[0, 1, 2], [7, 8], some ⟨[true, false]⟩⟩ true
    ∧ (true = true →
        write_def_levels true (BinaryArray.mk [0, 1, 2] [7, 8]
            (some ⟨[true, false]⟩)).validity
            (BinaryArray.mk [0, 1, 2] [7, 8] (some ⟨[true, false]⟩)).len =
          hybrid_rle_encode (presence_stream (BinaryArray.mk [0, 1, 2] [7, 8]
            (some ⟨[true, false]⟩)).validity
            (BinaryArray.mk [0, 1, 2] [7, 8] (some ⟨[true, false]⟩)).len)
        ∧ (presence_stream (BinaryArray.mk [0, 1, 2] [7, 8]
            (some ⟨[true, false]⟩)).validity
            (BinaryArray.mk [0, 1, 2] [7, 8] (some ⟨[true, false]⟩)).len).length =
          (BinaryArray.mk [0, 1, 2] [7, 8] (some ⟨[true, false]⟩)).len)
    ∧ (true = false →
        write_def_levels false (BinaryArray.mk [0, 1, 2] [7, 8]
            (some ⟨[true, false]⟩)).validity
            (BinaryArray.mk [0, 1, 2] [7, 8] (some ⟨[true, false]⟩)).len = []) :=
  page_buffer_layout ⟨[0, 1, 2], [7, 8], some ⟨[true, false]⟩⟩ true
    (CompressedPage.mk (PageHeader.v1 ⟨2, .plain, .rle, .rle, none⟩)
      [2, 0, 0, 0, 1, 0, 1, 0, 0, 0, 7] .uncompressed 11 none none) rfl

/-- Counterexample to C2 as stated: a two-slot array whose second slot is
null, encoded with `is_optional = false` and no codec, yields a buffer that
also encodes the null slot's physical bytes, while the claim demands that
only non-null values be appended for every `is_optional` flag. -/
theorem page_buffer_layout_counterexample :
    (array_to_page_v1 ⟨[0, 1, 2], [7, 8], some ⟨[true, false]⟩⟩ .uncompressed
        false).toOption.map CompressedPage.buffer ≠
      some (c2_claimed_payload ⟨[0, 1, 2], [7, 8], some ⟨[true, false]⟩⟩ false) := by
  decide

theorem try_get_child_ok {large : Bool} {data_type : DataType} {f : Field}
    (h : ListArray.try_get_child large data_type = .ok f) :
    data_type = (if large then DataType.largeList f else DataType.list f) := by
  cases large <;> unfold ListArray.try_get_child at h <;>
    simp only [Bool.false_eq_true, if_false, if_true] <;>
      cases data_type <;> simp_all

/-- C5 (amended): for a validly constructed list array whose schema-declared
child field is named "item" (the name the conversion hard-codes), converting
to the external runtime's representation and back reproduces the array
exactly — same data type, offsets, validity and values. -/
theorem arrow_roundtrip (large : Bool) (a : ListArray) (f : Field)
    (hok : ListArray.try_new large a.data_type a.offsets a.values a.validity = .ok a)
    (hf : ListArray.try_get_child large a.data_type = .ok f)
    (hname : f.name = "item") :
    (ListArray.to_arrow large a).bind (ListArray.from_arrow large) = some a := by
  obtain ⟨hb, hv, ⟨child, hc, hcd⟩, -⟩ := try_new_eq_ok_iff.mp hok
  rw [hc] at hf
  cases hf
  have hdt := try_get_child_ok hc
  have hfield : Field.mk "item" f.data_type f.is_nullable = f := by
    cases f with
    | mk n d b =>
      simp only [Field.name] at hname
      simp only [Field.data_type, Field.is_nullable]
      rw [hname]
  unfold ListArray.to_arrow
  rw [hc]
  show (ListArray.from_arrow large
    ⟨⟨"item", f.data_type, f.is_nullable⟩, a.offsets, a.values,
      a.validity.map fun x => x⟩) = some a
  unfold ListArray.from_arrow ListArray.new Field.from_arrow
  show (ListArray.try_new large
      (if large then DataType.largeList ⟨"item", f.data_type, f.is_nullable⟩
       else DataType.list ⟨"item", f.data_type, f.is_nullable⟩)
      a.offsets a.values
      ((a.validity.map fun x => x).map Bitmap.from_arrow)).toOption = some a
  rw [hfield, ← hdt]
  have hmap : (a.validity.map fun x => x).map Bitmap.from_arrow = a.validity := by
    cases a.validity <;> rfl
  rw [hmap, hok]
  rfl

/-- Witness for C5 on the spec's nullable concrete scenario (child field
named "item", validity `[T,T,T,T,F,T]`). -/
theorem arrow_roundtrip_witness :
    (ListArray.to_arrow false
        ⟨.list (.mk "item" .int16 true), [0, 2, 5, 5, 7, 7, 8],
          ⟨.int16, [1, 2, 11, 12, 13, 31, 32, 41]⟩,
          some ⟨[true, true, true, true, false, true]⟩⟩).bind
      (ListArray.from_arrow false) =
      some ⟨.list (.mk "item" .int16 true), [0, 2, 5, 5, 7, 7, 8],
        ⟨.int16, [1, 2, 11, 12, 13, 31, 32, 41]⟩,
        some ⟨[true, true, true, true, false, true]⟩⟩ :=
  arrow_roundtrip false
    ⟨.list (.mk "item" .int16 true), [0, 2, 5, 5, 7, 7, 8],
      ⟨.int16, [1, 2, 11, 12, 13, 31, 32, 41]⟩,
      some ⟨[true, true, true, true, false, true]⟩⟩
    (.mk "item" .int16 true) (by decide) (by decide) (by decide)

/-- Counterexample to C5 as stated: a validly constructed list array whose
child field is named "x" does not round-trip to an equal array — the
conversion renames the child field to "item", so the data type changes. -/
theorem arrow_roundtrip_counterexample :
    (ListArray.to_arrow false
        ⟨.list (.mk "x" .int16 true), [0, 0], ⟨.int16, []⟩, none⟩).bind
      (ListArray.from_arrow false) ≠
      some ⟨.list (.mk "x" .int16 true), [0, 0], ⟨.int16, []⟩, none⟩
    ∧ ListArray.try_new false (.list (.mk "x" .int16 true)) [0, 0] ⟨.int16, []⟩ none =
        .ok ⟨.list (.mk "x" .int16 true), [0, 0], ⟨.int16, []⟩, none⟩ := by
  decide

end Arrow2
